import Mathlib

/-!
# HW_30: grade classification and user-card rendering (`main.js`)

A shallow embedding of `src/main.js`.

* `getScoreClass` reads the global `gradation`, which `main.js` does not define.
  It is taken as a parameter: the list of `[key, value]` pairs that
  `Object.entries(gradation)` yields, in enumeration order. The keys are the
  decimal texts of integers of magnitude at most `2^52`, for which the number
  conversion and the subtraction of the comparator are exact.
* The value passed as `mark` is an arbitrary JavaScript primitive (`JSValue`),
  because `mark <= maxScore` coerces its operands.
* `renderUsers` assigns its result to `container.innerHTML`; the embedding
  returns the assigned string.
-/

namespace HW30

/-! ## JavaScript values and the `<=` operator -/

/-- The primitive values that can reach `getScoreClass` as `mark`.
Finite numbers are rationals (every finite double is one); `nan`, `posInfinity`
and `negInfinity` are the remaining values of type number. -/
inductive JSValue where
  | undefined
  | null
  | nan
  | posInfinity
  | negInfinity
  | number (q : ℚ)
  | boolean (b : Bool)
  | string (s : String)
  deriving DecidableEq

/-- The largest ceiling represented, `2^52`. -/
def maxCeiling : Int := 4503599627370496

/-- A score ceiling: an integer of magnitude at most `2^52`. Such an integer
is a safe integer (`Number.isSafeInteger`), so the conversion of its key to a
number is exact, and the difference of two of them has magnitude at most
`2^53`, so `a[0] - b[0]` is exact too. A key whose integer lies outside this
range can be rounded to another double by `a[0] - b[0]` and by
`mark <= maxScore`, and a table with such a key is not represented here. -/
abbrev Ceiling := { k : Int // -maxCeiling ≤ k ∧ k ≤ maxCeiling }

/-- One `[maxScore, grade]` pair of `Object.entries(gradation)`. The property
key is the decimal text of the ceiling (`{60: "C"}` has the key `"60"`); the
pair stores the ceiling, and `keyText` gives the key back. -/
abbrev Entry := Ceiling × String

/-- The gradation table as `Object.entries(gradation)` enumerates it. -/
abbrev Gradation := List Entry

/-- The property key of a ceiling: its decimal text, with a leading minus sign
when negative. For an integer of this range it is both the text that converts
to the ceiling and `ToString` of the ceiling. -/
def keyText (maxScore : Ceiling) : String := toString maxScore.val

/-- String `<` of the relational comparison: lexicographic over the characters.
JavaScript compares UTF-16 code units and this compares code points; the two
agree whenever one operand is ASCII, and `keyText` always is. -/
def stringLt : List Char → List Char → Bool
  | _, [] => false
  | [], _ :: _ => true
  | a :: as, b :: bs =>
    if a.toNat < b.toNat then true
    else if b.toNat < a.toNat then false
    else stringLt as bs

/-- The test `mark <= maxScore` of `getScoreClass`, where `maxScore` is a
property key (a string). Two strings are compared as text; otherwise both
operands go through `ToNumber` (`undefined` becomes `NaN`, `null` becomes `0`,
`true` becomes `1`, the key becomes its ceiling, exactly, since the ceiling is
a safe integer) and any comparison with `NaN` is false. `a <= b` is evaluated
as "not `b < a`". -/
def lessEq (mark : JSValue) (maxScore : Ceiling) : Bool :=
  match mark with
  | .string s => !(stringLt (keyText maxScore).data s.data)
  | .undefined => false
  | .nan => false
  | .posInfinity => false
  | .negInfinity => true
  | .null => decide ((0 : ℚ) ≤ (maxScore : ℚ))
  | .boolean b => decide ((if b then (1 : ℚ) else 0) ≤ (maxScore : ℚ))
  | .number q => decide (q ≤ (maxScore : ℚ))

/-! ## `User.getScoreClass` -/

/-- The comparator `(a, b) => a[0] - b[0]`: both keys are converted to numbers
and subtracted. Both conversions and the subtraction are exact for ceilings of
magnitude at most `2^52`. -/
def compareFn (a b : Entry) : Int := a.1.val - b.1.val

/-- Insertion step of the stable sort: `a` goes before the first element it
does not compare greater than. -/
def insertSorted (a : Entry) : List Entry → List Entry
  | [] => [a]
  | b :: rest =>
    if compareFn a b ≤ 0 then a :: b :: rest else b :: insertSorted a rest

/-- `Array.prototype.sort` with `compareFn`: ascending by the comparator and
stable (elements that compare equal keep their enumeration order). -/
def sortEntries : Gradation → List Entry
  | [] => []
  | a :: rest => insertSorted a (sortEntries rest)

/-- The `for ... of` loop of `getScoreClass` over the sorted pairs: return the
grade of the first pair with `mark <= maxScore`, and `''` when the loop ends.
(`previousKey` is assigned and never read.) -/
def getScoreClassLoop (mark : JSValue) : List Entry → String
  | [] => ""
  | (maxScore, grade) :: rest =>
    if lessEq mark maxScore then grade else getScoreClassLoop mark rest

/-- `User.getScoreClass(mark)` with the global `gradation` made explicit. -/
def getScoreClass (gradation : Gradation) (mark : JSValue) : String :=
  getScoreClassLoop mark (sortEntries gradation)

/-- The pair at which the loop of `getScoreClass` returns, if it returns from
inside the loop: the first sorted pair with `mark <= maxScore`. -/
def getScoreEntry (gradation : Gradation) (mark : JSValue) : Option Entry :=
  (sortEntries gradation).find? (fun e => lessEq mark e.1)

/-- The table `{60: "C", 80: "B", 100: "A"}`. -/
def sampleGradation : Gradation :=
  [(⟨60, by decide⟩, "C"), (⟨80, by decide⟩, "B"), (⟨100, by decide⟩, "A")]

/-! ## User records and classes -/

/-- One element of a record's `courses`. `title` and `lector` are the texts the
templates interpolate; `mark`, `score` and `studentsScore` are only passed to
`getScoreClass`, and a field the record lacks is `undefined`. -/
structure Course where
  title : String
  lector : String
  mark : JSValue
  score : JSValue
  studentsScore : JSValue
  deriving DecidableEq

/-- A raw user record, an element of the `users` argument. `courses` is `none`
when the record has no such field. -/
structure UserRecord where
  name : String
  age : Int
  img : String
  role : String
  courses : Option (List Course)
  deriving DecidableEq

/-- The four classes of `main.js`. -/
inductive UserClass where
  | User
  | Student
  | Admin
  | Lector
  deriving DecidableEq

/-- An object built by one of the four constructors: its class and the fields
the `User` constructor assigns. -/
structure UserObject where
  cls : UserClass
  name : String
  age : Int
  img : String
  role : String
  courses : List Course
  deriving DecidableEq

/-- The `User` constructor, which the three subclasses call through `super`:
`this.courses = user.courses || []`. -/
def construct (cls : UserClass) (user : UserRecord) : UserObject :=
  { cls := cls
    name := user.name
    age := user.age
    img := user.img
    role := user.role
    courses := user.courses.getD [] }

/-- `String.prototype.toLowerCase` on ASCII text: `A`-`Z` go to `a`-`z` and
every other character is kept. (JavaScript also lowercases letters outside
ASCII; none of them lowercases to a letter of "student", "admin" or "lector",
so the `switch` of `renderUsers` takes the same branch.) -/
def toLowerCase (s : String) : String := ⟨s.data.map Char.toLower⟩

/-- `Array.prototype.join('')` on an array of strings. -/
def joinStrings : List String → String
  | [] => ""
  | s :: rest => s ++ joinStrings rest

/-! ## The templates -/

/-- The arrow function of `User.renderCourses`: one course of the base class
(and of `Student`, which inherits it). -/
def User.courseEntry (gradation : Gradation) (course : Course) : String :=
  "\n                    <div class=\"course\">\n                        <span class=\"course-title\">"
    ++ course.title
    ++ "</span>\n                        <span class=\"course-score "
    ++ getScoreClass gradation course.mark
    ++ "\">"
    ++ getScoreClass gradation course.mark
    ++ "</span>\n                    </div>\n                "

/-- The arrow function of `Admin.renderCourses`. -/
def Admin.courseEntry (gradation : Gradation) (course : Course) : String :=
  "\n                    <div class=\"course--admin\">\n                    <p>Titel: <span class=\"course-title\">"
    ++ course.title
    ++ "</span></p>\n                    <p>Admin's score: <span class=\"course-score "
    ++ getScoreClass gradation course.score
    ++ "\">"
    ++ getScoreClass gradation course.score
    ++ "</span></p>    \n                    <p>Lector:<span class=\"course-lector\"> "
    ++ course.lector
    ++ "</span></p>     \n                    </div>\n                "

/-- The arrow function of `Lector.renderCourses`. -/
def Lector.courseEntry (gradation : Gradation) (course : Course) : String :=
  "\n                    <div class=\"course--lector\">\n                    <p>Titel: <span class=\"course-title\"> "
    ++ course.title
    ++ "</span></p>\n                    <p>Lector's score: <span class=\"course-score "
    ++ getScoreClass gradation course.score
    ++ "\"> "
    ++ getScoreClass gradation course.score
    ++ "</span></p>\n                    <p>Average student's score: <span class=\"course-score "
    ++ getScoreClass gradation course.studentsScore
    ++ "\"> "
    ++ getScoreClass gradation course.studentsScore
    ++ "</span></p>\n                    </div>\n                "

/-- `User.renderCourses()`: `this.courses.map(...).join('')`. -/
def User.renderCourses (gradation : Gradation) (courses : List Course) : String :=
  joinStrings (courses.map (User.courseEntry gradation))

/-- `Admin.renderCourses()`. -/
def Admin.renderCourses (gradation : Gradation) (courses : List Course) : String :=
  joinStrings (courses.map (Admin.courseEntry gradation))

/-- `Lector.renderCourses()`. -/
def Lector.renderCourses (gradation : Gradation) (courses : List Course) : String :=
  joinStrings (courses.map (Lector.courseEntry gradation))

/-- The call `this.renderCourses(...)`: `Admin` and `Lector` override the
method, `Student` inherits it from `User`. (The argument `render` passes is
ignored by all three.) -/
def UserObject.renderCourses (gradation : Gradation) (this : UserObject) : String :=
  match this.cls with
  | .Admin => Admin.renderCourses gradation this.courses
  | .Lector => Lector.renderCourses gradation this.courses
  | .Student => User.renderCourses gradation this.courses
  | .User => User.renderCourses gradation this.courses

/-- The text of the `render` template before its courses slot. -/
def cardHead (this : UserObject) : String :=
  "\n                    <div class=\"user-card "
    ++ toLowerCase this.role
    ++ "\">\n                        <div class=\"user-details\">\n                            <div class=\"user-header\">\n                                <img src=\"images/users/"
    ++ this.img
    ++ ".png\" alt=\""
    ++ this.name
    ++ "\" class=\"user-img\">\n                                <div class=\"user-info\">\n                                    <p class=\"user-name\">Name: <span>"
    ++ this.name
    ++ "</span></p>\n                                    <p class=\"user-age\">Age: <span>"
    ++ toString this.age
    ++ "</span></p>\n                                </div>\n                            </div>\n                            <div class=\"user-role\">\n                                <img src=\"images/roles/"
    ++ toLowerCase this.role
    ++ ".png\" alt=\""
    ++ this.role
    ++ "\" class=\"role-img\">\n                                <span class=\"role-text\">"
    ++ this.role
    ++ "</span>\n                            </div>\n                        </div>\n                        "

/-- The text of the `render` template after its courses slot. -/
def cardFoot : String := "\n                    </div>\n                "

/-- The courses slot of the `render` template:
`this.courses.length ? (the user-courses block) : ''`. -/
def coursesSlot (gradation : Gradation) (this : UserObject) : String :=
  if this.courses.length ≠ 0 then
    "<div class=\"user-courses\">" ++ this.renderCourses gradation ++ "</div>"
  else ""

/-- `User.render()`, which no subclass overrides. -/
def User.render (gradation : Gradation) (this : UserObject) : String :=
  cardHead this ++ coursesSlot gradation this ++ cardFoot

/-! ## `renderUsers` -/

/-- The `switch` of `renderUsers`: the object built for one record. -/
def instantiate (user : UserRecord) : UserObject :=
  if toLowerCase user.role = "student" then construct .Student user
  else if toLowerCase user.role = "admin" then construct .Admin user
  else if toLowerCase user.role = "lector" then construct .Lector user
  else construct .User user

/-- The callback `renderUsers` maps over `users`: build the object and render
it. -/
def userCard (gradation : Gradation) (user : UserRecord) : String :=
  User.render gradation (instantiate user)

/-- `renderUsers(users)`: the string assigned to `container.innerHTML`. -/
def renderUsers (gradation : Gradation) (users : List UserRecord) : String :=
  joinStrings (users.map (userCard gradation))

/-- A sample record with the role Student. -/
def sampleStudent : UserRecord :=
  { name := "Ann", age := 20, img := "ann", role := "Student",
    courses := some [{ title := "Math", lector := "", mark := .number 61,
                       score := .undefined, studentsScore := .undefined }] }

/-- A sample record with the role Admin. -/
def sampleAdmin : UserRecord :=
  { name := "Bob", age := 41, img := "bob", role := "Admin",
    courses := some [{ title := "Math", lector := "Eve", mark := .undefined,
                       score := .number 100, studentsScore := .undefined }] }

/-- A sample record with the role Lector. -/
def sampleLector : UserRecord :=
  { name := "Eve", age := 35, img := "eve", role := "Lector",
    courses := some [{ title := "Math", lector := "", mark := .undefined,
                       score := .number 60, studentsScore := .number 101 }] }

/-- A sample record with the unrecognised role "guest" and no `courses`. -/
def sampleGuest : UserRecord :=
  { name := "Guy", age := 30, img := "guy", role := "guest", courses := none }

/-! ## Counting the courses class in markup -/

/-- The class name of the courses block. -/
def coursesClass : String := "user-courses"

/-- The number of positions of `text` at which `pat` starts. -/
def countOccurrences (pat : List Char) : List Char → Nat
  | [] => 0
  | c :: rest =>
    (if pat.isPrefixOf (c :: rest) then 1 else 0) + countOccurrences pat rest

/-- The number of times the class name `user-courses` is written in a piece of
markup. -/
def coursesClassCount (markup : String) : Nat :=
  countOccurrences coursesClass.data markup.data

/-- Whether every occurrence of `pat` that starts inside `text` is decided
inside `text`: each non-empty suffix of `text` either begins with `pat` or
differs from `pat` before it ends. -/
def tailSafe (pat : List Char) : List Char → Bool
  | [] => true
  | c :: rest =>
    (pat.isPrefixOf (c :: rest) || !(c :: rest).isPrefixOf pat) && tailSafe pat rest

/-- Whether `text` starts with a character that `pat` does not contain, so
that no occurrence of `pat` runs from the text before it into `text`. -/
def startsOutside (pat : List Char) : List Char → Bool
  | [] => false
  | c :: _ => !pat.contains c

/-- A text in which the class name `user-courses` is not written. -/
def cleanText (s : String) : Prop := coursesClassCount s = 0

instance cleanTextDecidable (s : String) : Decidable (cleanText s) := by
  unfold cleanText
  infer_instance

/-- A course whose interpolated texts do not write the class name. -/
def cleanCourse (course : Course) : Prop :=
  cleanText course.title ∧ cleanText course.lector

/-- A record whose interpolated texts do not write the class name: its name,
image, role, lowercased role, and the texts of its courses. -/
def cleanRecord (user : UserRecord) : Prop :=
  cleanText user.name ∧ cleanText user.img ∧ cleanText user.role ∧
    cleanText (toLowerCase user.role) ∧
    ∀ course ∈ user.courses.getD [], cleanCourse course

/-- A table whose labels do not write the class name. -/
def cleanGradation (gradation : Gradation) : Prop :=
  ∀ e ∈ gradation, cleanText e.2

/-- A record without `courses` whose role is the text `user-courses`. -/
def sampleRoleClash : UserRecord :=
  { name := "Zed", age := 50, img := "zed", role := "user-courses", courses := none }

/-- A record with empty `courses` whose name is markup. -/
def sampleMarkupName : UserRecord :=
  { name := "<div class=\"user-courses\">", age := 50, img := "zed", role := "guest",
    courses := some [] }

/-- Two sample courses. -/
def sampleCourses : List Course :=
  [ { title := "Math", lector := "Eve", mark := .number 61, score := .number 100,
      studentsScore := .number 101 },
    { title := "Art", lector := "Bob", mark := .number 60, score := .number 80,
      studentsScore := .undefined } ]

/-- A table with two negative ceilings, which `Object.entries` lists after the
others and in insertion order; here `-5` was inserted before `-10`. -/
def sampleNegativeFirst : Gradation :=
  [(⟨60, by decide⟩, "C"), (⟨80, by decide⟩, "B"), (⟨-5, by decide⟩, "Z"),
   (⟨-10, by decide⟩, "Y")]

/-- The same table with `-10` inserted before `-5`. -/
def sampleNegativeSecond : Gradation :=
  [(⟨60, by decide⟩, "C"), (⟨80, by decide⟩, "B"), (⟨-10, by decide⟩, "Y"),
   (⟨-5, by decide⟩, "Z")]

/-! ## Lemmas on the sort and the loop -/

theorem insertSorted_perm (a : Entry) (l : List Entry) :
    (insertSorted a l).Perm (a :: l) := by
  induction l with
  | nil => exact List.Perm.refl _
  | cons b rest ih =>
    unfold insertSorted
    split
    · exact List.Perm.refl _
    · exact (List.Perm.cons b ih).trans (List.Perm.swap a b rest)

theorem sortEntries_perm (l : Gradation) : (sortEntries l).Perm l := by
  induction l with
  | nil => exact List.Perm.refl _
  | cons a rest ih =>
    exact (insertSorted_perm a (sortEntries rest)).trans (List.Perm.cons a ih)

theorem mem_sortEntries {l : Gradation} {e : Entry} : e ∈ sortEntries l ↔ e ∈ l :=
  (sortEntries_perm l).mem_iff

theorem insertSorted_pairwise (a : Entry) (l : List Entry)
    (h : l.Pairwise (fun x y => x.1 ≤ y.1)) :
    (insertSorted a l).Pairwise (fun x y => x.1 ≤ y.1) := by
  induction l with
  | nil => simp [insertSorted]
  | cons b rest ih =>
    have hb := List.pairwise_cons.1 h
    unfold insertSorted
    split
    · rename_i hab
      have hab' : a.1 ≤ b.1 := by
        unfold compareFn at hab
        show a.1.val ≤ b.1.val
        omega
      refine List.pairwise_cons.2 ⟨?_, h⟩
      intro y hy
      rcases List.mem_cons.1 hy with rfl | hy
      · exact hab'
      · exact le_trans hab' (hb.1 y hy)
    · rename_i hab
      have hba : b.1 ≤ a.1 := by
        unfold compareFn at hab
        show b.1.val ≤ a.1.val
        omega
      refine List.pairwise_cons.2 ⟨?_, ih hb.2⟩
      intro y hy
      rcases List.mem_cons.1 ((insertSorted_perm a rest).mem_iff.1 hy) with rfl | hy
      · exact hba
      · exact hb.1 y hy

theorem sortEntries_pairwise (l : Gradation) :
    (sortEntries l).Pairwise (fun x y => x.1 ≤ y.1) := by
  induction l with
  | nil => exact List.Pairwise.nil
  | cons a rest ih => exact insertSorted_pairwise a _ ih

/-- The loop returns the grade of the first matching pair, or `''`. -/
theorem getScoreClassLoop_eq_find (mark : JSValue) (l : List Entry) :
    getScoreClassLoop mark l =
      match l.find? (fun e => lessEq mark e.1) with
      | some e => e.2
      | none => "" := by
  induction l with
  | nil => rfl
  | cons a rest ih =>
    obtain ⟨k, g⟩ := a
    by_cases h : lessEq mark k = true
    · simp [getScoreClassLoop, List.find?, h]
    · simp only [Bool.not_eq_true] at h
      simp [getScoreClassLoop, List.find?, h, ih]

theorem getScoreClass_eq_entry (gradation : Gradation) (mark : JSValue) :
    getScoreClass gradation mark =
      match getScoreEntry gradation mark with
      | some e => e.2
      | none => "" :=
  getScoreClassLoop_eq_find mark (sortEntries gradation)

/-- In a list sorted by ceiling, the first pair a number does not exceed has
the lowest such ceiling. -/
theorem find_number_lowest (q : ℚ) (l : List Entry)
    (hs : l.Pairwise (fun x y => x.1 ≤ y.1)) (e : Entry)
    (h : l.find? (fun x => lessEq (.number q) x.1) = some e) :
    e ∈ l ∧ q ≤ (e.1 : ℚ) ∧ ∀ y ∈ l, q ≤ (y.1 : ℚ) → e.1 ≤ y.1 := by
  induction l with
  | nil => simp at h
  | cons a rest ih =>
    have ha := List.pairwise_cons.1 hs
    by_cases hp : lessEq (.number q) a.1 = true
    · have hq : q ≤ (a.1 : ℚ) := by simpa [lessEq] using hp
      simp only [List.find?, hp, Option.some.injEq] at h
      subst h
      refine ⟨List.mem_cons_self _ _, hq, ?_⟩
      intro y hy _
      rcases List.mem_cons.1 hy with rfl | hy
      · exact le_refl _
      · exact ha.1 y hy
    · simp only [Bool.not_eq_true] at hp
      simp only [List.find?, hp] at h
      obtain ⟨hm, hq, hmin⟩ := ih ha.2 h
      refine ⟨List.mem_cons_of_mem _ hm, hq, ?_⟩
      intro y hy hqy
      rcases List.mem_cons.1 hy with rfl | hy
      · have : lessEq (.number q) y.1 = true := by simpa [lessEq] using hqy
        rw [hp] at this
        exact absurd this (by simp)
      · exact hmin y hy hqy

/-- A number at or below some ceiling makes the loop return inside the table. -/
theorem find_number_isSome (q : ℚ) (l : List Entry)
    (h : ∃ y ∈ l, q ≤ (y.1 : ℚ)) :
    ∃ e, l.find? (fun x => lessEq (.number q) x.1) = some e := by
  obtain ⟨y, hy, hq⟩ := h
  cases hf : l.find? (fun x => lessEq (.number q) x.1) with
  | some e => exact ⟨e, rfl⟩
  | none =>
    have := List.find?_eq_none.1 hf y hy
    simp [lessEq] at this
    exact absurd hq (not_le.2 this)

/-- Characterisation of the pair `getScoreClass` returns from, for a number. -/
theorem getScoreEntry_number_spec (gradation : Gradation) (q : ℚ) (e : Entry)
    (h : getScoreEntry gradation (.number q) = some e) :
    e ∈ gradation ∧ q ≤ (e.1 : ℚ) ∧
      ∀ y ∈ gradation, q ≤ (y.1 : ℚ) → e.1 ≤ y.1 := by
  obtain ⟨hm, hq, hmin⟩ :=
    find_number_lowest q (sortEntries gradation) (sortEntries_pairwise gradation) e h
  exact ⟨mem_sortEntries.1 hm, hq, fun y hy => hmin y (mem_sortEntries.2 hy)⟩

theorem getScoreEntry_number_isSome (gradation : Gradation) (q : ℚ)
    (h : ∃ y ∈ gradation, q ≤ (y.1 : ℚ)) :
    ∃ e, getScoreEntry gradation (.number q) = some e := by
  obtain ⟨y, hy, hq⟩ := h
  exact find_number_isSome q (sortEntries gradation) ⟨y, mem_sortEntries.2 hy, hq⟩

theorem getScoreClassLoop_of_forall_not (mark : JSValue) (l : List Entry)
    (h : ∀ e ∈ l, lessEq mark e.1 = false) : getScoreClassLoop mark l = "" := by
  induction l with
  | nil => rfl
  | cons a rest ih =>
    obtain ⟨k, g⟩ := a
    have hk : lessEq mark k = false := h (k, g) (List.mem_cons_self _ _)
    simp only [getScoreClassLoop, hk, Bool.false_eq_true, if_false]
    exact ih (fun e he => h e (List.mem_cons_of_mem _ he))

/-- With pairwise distinct ceilings the sorted order is determined by the set
of pairs alone. -/
theorem sortEntries_eq_of_perm (g₁ g₂ : Gradation) (hp : g₁.Perm g₂)
    (hd : (g₁.map Prod.fst).Nodup) : sortEntries g₁ = sortEntries g₂ := by
  have hperm : (sortEntries g₁).Perm (sortEntries g₂) :=
    ((sortEntries_perm g₁).trans hp).trans (sortEntries_perm g₂).symm
  have hd₁ : ((sortEntries g₁).map Prod.fst).Nodup :=
    ((sortEntries_perm g₁).map Prod.fst).nodup_iff.2 hd
  have hd₂ : ((sortEntries g₂).map Prod.fst).Nodup :=
    (hperm.map Prod.fst).nodup_iff.1 hd₁
  have strict : ∀ l : List Entry, l.Pairwise (fun x y => x.1 ≤ y.1) →
      (l.map Prod.fst).Nodup → l.Pairwise (fun x y => x.1 < y.1) := by
    intro l hs hn
    have hne : l.Pairwise (fun x y => x.1 ≠ y.1) := List.pairwise_map.1 hn
    exact (hs.and hne).imp (fun h => lt_of_le_of_ne h.1 h.2)
  have s₁ := strict _ (sortEntries_pairwise g₁) hd₁
  have s₂ := strict _ (sortEntries_pairwise g₂) hd₂
  haveI : IsAntisymm Entry (fun x y => x.1 < y.1) :=
    ⟨fun a b hab hba => absurd hab (not_lt.2 (le_of_lt hba))⟩
  exact List.eq_of_perm_of_sorted hperm s₁ s₂

/-- For a number at or below some ceiling, `getScoreClass` returns the label
of a pair of the table with the lowest ceiling that is at least the number. -/
theorem getScoreClass_number_spec (gradation : Gradation) (q : ℚ)
    (h : ∃ y ∈ gradation, q ≤ (y.1 : ℚ)) :
    ∃ e ∈ gradation, q ≤ (e.1 : ℚ) ∧
      (∀ y ∈ gradation, q ≤ (y.1 : ℚ) → e.1 ≤ y.1) ∧
      getScoreEntry gradation (.number q) = some e ∧
      getScoreClass gradation (.number q) = e.2 := by
  obtain ⟨e, he⟩ := getScoreEntry_number_isSome gradation q h
  obtain ⟨hm, hq, hmin⟩ := getScoreEntry_number_spec gradation q e he
  refine ⟨e, hm, hq, hmin, he, ?_⟩
  rw [getScoreClass_eq_entry, he]

/-! ## Lemmas on strings and markup -/

theorem joinStrings_append (l₁ l₂ : List String) :
    joinStrings (l₁ ++ l₂) = joinStrings l₁ ++ joinStrings l₂ := by
  induction l₁ with
  | nil => simp [joinStrings]
  | cons s rest ih => simp [joinStrings, ih, String.append_assoc]

theorem isPrefixOf_append_of_safe (pat s t : List Char)
    (h : (pat.isPrefixOf s || !s.isPrefixOf pat) = true) :
    pat.isPrefixOf (s ++ t) = pat.isPrefixOf s := by
  rcases Bool.or_eq_true _ _ ▸ h with h1 | h2
  · rw [h1]
    rw [List.isPrefixOf_iff_prefix] at h1 ⊢
    exact h1.trans (List.prefix_append s t)
  · by_cases hp : pat.isPrefixOf s = true
    · rw [hp]
      rw [List.isPrefixOf_iff_prefix] at hp ⊢
      exact hp.trans (List.prefix_append s t)
    · simp only [Bool.not_eq_true] at hp
      rw [hp]
      by_contra hc
      simp only [Bool.not_eq_false] at hc
      rw [List.isPrefixOf_iff_prefix] at hc
      rcases List.prefix_or_prefix_of_prefix hc (List.prefix_append s t) with h3 | h3
      · rw [← List.isPrefixOf_iff_prefix] at h3
        rw [h3] at hp; exact absurd hp (by simp)
      · rw [← List.isPrefixOf_iff_prefix] at h3
        rw [h3] at h2; exact absurd h2 (by simp)

theorem countOccurrences_append_of_safe (pat s t : List Char) (h : tailSafe pat s = true) :
    countOccurrences pat (s ++ t) = countOccurrences pat s + countOccurrences pat t := by
  induction s with
  | nil => simp [countOccurrences]
  | cons c rest ih =>
    simp only [tailSafe, Bool.and_eq_true] at h
    have := isPrefixOf_append_of_safe pat (c :: rest) t h.1
    simp only [List.cons_append] at this ⊢
    simp only [countOccurrences, this, ih h.2]
    omega

theorem isPrefixOf_append_of_startsOutside (pat u t : List Char)
    (h : startsOutside pat t = true) :
    pat.isPrefixOf (u ++ t) = pat.isPrefixOf u := by
  cases t with
  | nil => simp [startsOutside] at h
  | cons c t' =>
    have hc : c ∉ pat := by simpa [startsOutside] using h
    by_cases hp : pat.isPrefixOf u = true
    · rw [hp]
      rw [List.isPrefixOf_iff_prefix] at hp ⊢
      exact hp.trans (List.prefix_append u _)
    · simp only [Bool.not_eq_true] at hp
      rw [hp]
      by_contra hcon
      simp only [Bool.not_eq_false] at hcon
      rw [List.isPrefixOf_iff_prefix] at hcon
      rcases List.prefix_or_prefix_of_prefix hcon (List.prefix_append u (c :: t')) with h3 | h3
      · rw [← List.isPrefixOf_iff_prefix] at h3
        rw [h3] at hp
        exact absurd hp (by simp)
      · obtain ⟨w, hw⟩ := h3
        rw [← hw] at hcon
        have hw2 : w <+: c :: t' := (List.prefix_append_right_inj u).1 hcon
        cases w with
        | nil =>
          have hpu : pat.isPrefixOf u = true := by
            rw [List.isPrefixOf_iff_prefix, ← hw, List.append_nil]
          rw [hpu] at hp
          exact absurd hp (by simp)
        | cons c' w' =>
          obtain ⟨z, hz⟩ := hw2
          have hcc : c' = c := by
            have := congrArg List.head? hz
            simpa using this
          apply hc
          rw [← hw, ← hcc]
          simp

theorem countOccurrences_append_of_startsOutside (pat s t : List Char)
    (h : startsOutside pat t = true) :
    countOccurrences pat (s ++ t) = countOccurrences pat s + countOccurrences pat t := by
  induction s with
  | nil => simp [countOccurrences]
  | cons c rest ih =>
    have := isPrefixOf_append_of_startsOutside pat (c :: rest) t h
    simp only [List.cons_append] at this ⊢
    simp only [countOccurrences, this, ih]
    omega

theorem startsOutside_append (pat s t : List Char) (h : startsOutside pat s = true) :
    startsOutside pat (s ++ t) = true := by
  cases s with
  | nil => simp [startsOutside] at h
  | cons c rest => simpa [startsOutside] using h

theorem countOccurrences_of_head_not_mem (c : Char) (pat s : List Char) (h : c ∉ s) :
    countOccurrences (c :: pat) s = 0 := by
  induction s with
  | nil => rfl
  | cons d rest ih =>
    have hd : (c == d) = false := by
      simpa using fun hcd : c = d => h (hcd ▸ List.mem_cons_self _ _)
    have hr : c ∉ rest := fun hr => h (List.mem_cons_of_mem _ hr)
    simp only [countOccurrences, List.isPrefixOf, hd, Bool.false_and, Bool.false_eq_true,
      if_false, Nat.zero_add]
    exact ih hr

theorem digitChar_val_le (d : Nat) (h : d < 10) : (Nat.digitChar d).toNat ≤ 57 := by
  interval_cases d <;> decide

theorem toDigitsCore_val_le (fuel : Nat) : ∀ (n : Nat) (acc : List Char),
    (∀ c ∈ acc, c.toNat ≤ 57) → ∀ c ∈ Nat.toDigitsCore 10 fuel n acc, c.toNat ≤ 57 := by
  induction fuel with
  | zero => intro n acc h; simpa [Nat.toDigitsCore] using h
  | succ f ih =>
    intro n acc h
    have hd : (Nat.digitChar (n % 10)).toNat ≤ 57 := digitChar_val_le _ (Nat.mod_lt _ (by decide))
    have hacc : ∀ c ∈ Nat.digitChar (n % 10) :: acc, c.toNat ≤ 57 := by
      intro c hc
      rcases List.mem_cons.1 hc with rfl | hc
      · exact hd
      · exact h c hc
    simp only [Nat.toDigitsCore]
    split
    · exact hacc
    · exact ih _ _ hacc

theorem toDigitsCore_ne_nil (fuel : Nat) : ∀ (n : Nat) (acc : List Char),
    (fuel ≠ 0 ∨ acc ≠ []) → Nat.toDigitsCore 10 fuel n acc ≠ [] := by
  induction fuel with
  | zero => intro n acc h; rcases h with h | h; exact absurd rfl h; simpa [Nat.toDigitsCore] using h
  | succ f ih =>
    intro n acc _
    simp only [Nat.toDigitsCore]
    split
    · simp
    · exact ih _ _ (Or.inr (by simp))

/-- The decimal text of an integer is non-empty and made of digits, with a
leading minus sign when negative: no character is above `9`. -/
theorem intText_chars (k : Int) :
    (toString k).data ≠ [] ∧ ∀ c ∈ (toString k).data, c.toNat ≤ 57 := by
  cases k with
  | ofNat n =>
    have : (toString (Int.ofNat n)).data = Nat.toDigits 10 n := rfl
    rw [this]
    exact ⟨toDigitsCore_ne_nil _ _ _ (Or.inl (by simp)), toDigitsCore_val_le _ _ _ (by simp)⟩
  | negSucc n =>
    have : (toString (Int.negSucc n)).data = '-' :: Nat.toDigits 10 (n + 1) := rfl
    rw [this]
    refine ⟨by simp, ?_⟩
    intro c hc
    rcases List.mem_cons.1 hc with rfl | hc
    · decide
    · exact toDigitsCore_val_le _ _ _ (by simp) c hc

theorem lessEq_string_letter (k : Ceiling) (c : Char) (cs : List Char) (hc : 57 < c.toNat) :
    lessEq (.string ⟨c :: cs⟩) k = false := by
  obtain ⟨hne, hall⟩ := intText_chars k.val
  cases hk : (toString k.val).data with
  | nil => exact absurd hk hne
  | cons d ds =>
    have hd : d.toNat ≤ 57 := hall d (by rw [hk]; exact List.mem_cons_self _ _)
    have hlt : d.toNat < c.toNat := by omega
    simp [lessEq, keyText, hk, stringLt, hlt]

theorem cleanText_toString (k : Int) : cleanText (toString k) := by
  unfold cleanText coursesClassCount
  have hpat : coursesClass.data = 'u' :: "ser-courses".data := rfl
  rw [hpat]
  apply countOccurrences_of_head_not_mem
  intro hm
  have := (intText_chars k).2 _ hm
  exact absurd this (by decide)

theorem cleanText_empty : cleanText "" := by decide

theorem cleanText_getScoreClassLoop (mark : JSValue) (l : List Entry)
    (h : ∀ e ∈ l, cleanText e.2) : cleanText (getScoreClassLoop mark l) := by
  induction l with
  | nil => exact cleanText_empty
  | cons a rest ih =>
    obtain ⟨k, g⟩ := a
    simp only [getScoreClassLoop]
    split
    · exact h (k, g) (List.mem_cons_self _ _)
    · exact ih (fun e he => h e (List.mem_cons_of_mem _ he))

theorem cleanText_getScoreClass (gradation : Gradation) (mark : JSValue)
    (h : cleanGradation gradation) : cleanText (getScoreClass gradation mark) :=
  cleanText_getScoreClassLoop mark _ (fun e he => h e (mem_sortEntries.1 he))

/-- A fixed piece of template text: occurrences of the class name in it and in
what follows add up. -/
theorem coursesClassCount_text (s t : String)
    (h : tailSafe coursesClass.data s.data = true) :
    coursesClassCount (s ++ t) = coursesClassCount s + coursesClassCount t := by
  unfold coursesClassCount
  rw [String.data_append]
  exact countOccurrences_append_of_safe _ _ _ h

/-- A fixed piece of template text that does not write the class name and in
which the class name cannot begin and run on into what follows. -/
theorem coursesClassCount_template (s t : String)
    (h : tailSafe coursesClass.data s.data = true ∧ coursesClassCount s = 0) :
    coursesClassCount (s ++ t) = coursesClassCount t := by
  rw [coursesClassCount_text s t h.1, h.2, Nat.zero_add]

/-- An interpolated text that does not write the class name, followed by a
fixed piece of template text that starts with a character outside the class
name. -/
theorem coursesClassCount_field (f s t : String) (hf : cleanText f)
    (h : startsOutside coursesClass.data s.data = true ∧
      tailSafe coursesClass.data s.data = true ∧ coursesClassCount s = 0) :
    coursesClassCount (f ++ (s ++ t)) = coursesClassCount t := by
  have h1 : coursesClassCount (f ++ (s ++ t)) =
      coursesClassCount f + coursesClassCount (s ++ t) := by
    unfold coursesClassCount
    rw [String.data_append, String.data_append]
    exact countOccurrences_append_of_startsOutside _ _ _ (startsOutside_append _ _ _ h.1)
  rw [h1, hf, Nat.zero_add, coursesClassCount_template s t h.2]

set_option maxRecDepth 100000 in
theorem coursesClassCount_User_courseEntry (gradation : Gradation) (course : Course)
    (t : String) (hg : cleanGradation gradation) (hc : cleanCourse course) :
    coursesClassCount (User.courseEntry gradation course ++ t) = coursesClassCount t := by
  have hl := cleanText_getScoreClass gradation course.mark hg
  simp only [User.courseEntry, String.append_assoc]
  rw [coursesClassCount_template _ _ (by decide),
    coursesClassCount_field _ _ _ hc.1 (by decide),
    coursesClassCount_field _ _ _ hl (by decide),
    coursesClassCount_field _ _ _ hl (by decide)]

set_option maxRecDepth 100000 in
theorem coursesClassCount_Admin_courseEntry (gradation : Gradation) (course : Course)
    (t : String) (hg : cleanGradation gradation) (hc : cleanCourse course) :
    coursesClassCount (Admin.courseEntry gradation course ++ t) = coursesClassCount t := by
  have hl := cleanText_getScoreClass gradation course.score hg
  simp only [Admin.courseEntry, String.append_assoc]
  rw [coursesClassCount_template _ _ (by decide),
    coursesClassCount_field _ _ _ hc.1 (by decide),
    coursesClassCount_field _ _ _ hl (by decide),
    coursesClassCount_field _ _ _ hl (by decide),
    coursesClassCount_field _ _ _ hc.2 (by decide)]

set_option maxRecDepth 100000 in
theorem coursesClassCount_Lector_courseEntry (gradation : Gradation) (course : Course)
    (t : String) (hg : cleanGradation gradation) (hc : cleanCourse course) :
    coursesClassCount (Lector.courseEntry gradation course ++ t) = coursesClassCount t := by
  have hl := cleanText_getScoreClass gradation course.score hg
  have hs := cleanText_getScoreClass gradation course.studentsScore hg
  simp only [Lector.courseEntry, String.append_assoc]
  rw [coursesClassCount_template _ _ (by decide),
    coursesClassCount_field _ _ _ hc.1 (by decide),
    coursesClassCount_field _ _ _ hl (by decide),
    coursesClassCount_field _ _ _ hl (by decide),
    coursesClassCount_field _ _ _ hs (by decide),
    coursesClassCount_field _ _ _ hs (by decide)]

theorem coursesClassCount_joinStrings (entry : Course → String) (courses : List Course)
    (t : String)
    (h : ∀ course ∈ courses, ∀ t, coursesClassCount (entry course ++ t) = coursesClassCount t) :
    coursesClassCount (joinStrings (courses.map entry) ++ t) = coursesClassCount t := by
  induction courses with
  | nil => simp [joinStrings]
  | cons c rest ih =>
    simp only [List.map, joinStrings, String.append_assoc]
    rw [h c (List.mem_cons_self _ _)]
    exact ih (fun c hc => h c (List.mem_cons_of_mem _ hc))

theorem coursesClassCount_renderCourses (gradation : Gradation) (this : UserObject)
    (t : String) (hg : cleanGradation gradation)
    (hc : ∀ course ∈ this.courses, cleanCourse course) :
    coursesClassCount (this.renderCourses gradation ++ t) = coursesClassCount t := by
  unfold UserObject.renderCourses
  split
  · exact coursesClassCount_joinStrings _ _ _
      (fun c hm t => coursesClassCount_Admin_courseEntry gradation c t hg (hc c hm))
  · exact coursesClassCount_joinStrings _ _ _
      (fun c hm t => coursesClassCount_Lector_courseEntry gradation c t hg (hc c hm))
  · exact coursesClassCount_joinStrings _ _ _
      (fun c hm t => coursesClassCount_User_courseEntry gradation c t hg (hc c hm))
  · exact coursesClassCount_joinStrings _ _ _
      (fun c hm t => coursesClassCount_User_courseEntry gradation c t hg (hc c hm))

theorem render_of_courses_nil (gradation : Gradation) (this : UserObject)
    (h : this.courses = []) : User.render gradation this = cardHead this ++ cardFoot := by
  simp [User.render, coursesSlot, h]

theorem render_of_courses_cons (gradation : Gradation) (this : UserObject)
    (h : this.courses ≠ []) :
    User.render gradation this =
      cardHead this
        ++ ("<div class=\"user-courses\">" ++ this.renderCourses gradation ++ "</div>")
        ++ cardFoot := by
  have : this.courses.length ≠ 0 := by simpa using h
  simp only [User.render, coursesSlot, this, ne_eq, not_false_eq_true, if_true]

set_option maxRecDepth 100000 in
/-- The text of the card before the courses slot does not write the class
name when the interpolated texts do not. -/
theorem coursesClassCount_cardHead (this : UserObject) (t : String)
    (hn : cleanText this.name) (hi : cleanText this.img) (hr : cleanText this.role)
    (hlow : cleanText (toLowerCase this.role)) :
    coursesClassCount (cardHead this ++ t) = coursesClassCount t := by
  have hage := cleanText_toString this.age
  simp only [cardHead, String.append_assoc]
  rw [coursesClassCount_template _ _ (by decide),
    coursesClassCount_field _ _ _ hlow (by decide),
    coursesClassCount_field _ _ _ hi (by decide),
    coursesClassCount_field _ _ _ hn (by decide),
    coursesClassCount_field _ _ _ hn (by decide),
    coursesClassCount_field _ _ _ hage (by decide),
    coursesClassCount_field _ _ _ hlow (by decide),
    coursesClassCount_field _ _ _ hr (by decide),
    coursesClassCount_field _ _ _ hr (by decide)]

set_option maxRecDepth 100000 in
theorem coursesClassCount_render_nil (gradation : Gradation) (this : UserObject)
    (h : this.courses = [])
    (hn : cleanText this.name) (hi : cleanText this.img) (hr : cleanText this.role)
    (hlow : cleanText (toLowerCase this.role)) :
    coursesClassCount (User.render gradation this) = 0 := by
  rw [render_of_courses_nil gradation this h, coursesClassCount_cardHead this _ hn hi hr hlow]
  decide

set_option maxRecDepth 100000 in
theorem coursesClassCount_render_cons (gradation : Gradation) (this : UserObject)
    (h : this.courses ≠ []) (hg : cleanGradation gradation)
    (hn : cleanText this.name) (hi : cleanText this.img) (hr : cleanText this.role)
    (hlow : cleanText (toLowerCase this.role))
    (hc : ∀ course ∈ this.courses, cleanCourse course) :
    coursesClassCount (User.render gradation this) = 1 := by
  rw [render_of_courses_cons gradation this h]
  simp only [String.append_assoc]
  rw [coursesClassCount_cardHead this _ hn hi hr hlow,
    coursesClassCount_text _ _ (by decide),
    coursesClassCount_renderCourses gradation this _ hg hc]
  decide

theorem joinStrings_map_eq_foldr (entry : Course → String) (courses : List Course) :
    joinStrings (courses.map entry) =
      courses.foldr (fun course rest => entry course ++ rest) "" := by
  induction courses with
  | nil => rfl
  | cons c cs ih => simp only [List.map, joinStrings, List.foldr, ih]

set_option maxRecDepth 100000 in
theorem User_renderCourses_sample :
    User.renderCourses sampleGradation sampleCourses =
      "\n                    <div class=\"course\">\n                        <span class=\"course-title\">Math</span>\n                        <span class=\"course-score B\">B</span>\n                    </div>\n                \n                    <div class=\"course\">\n                        <span class=\"course-title\">Art</span>\n                        <span class=\"course-score C\">C</span>\n                    </div>\n                " := by
  decide

set_option maxRecDepth 100000 in
theorem Admin_renderCourses_sample :
    Admin.renderCourses sampleGradation sampleCourses =
      "\n                    <div class=\"course--admin\">\n                    <p>Titel: <span class=\"course-title\">Math</span></p>\n                    <p>Admin's score: <span class=\"course-score A\">A</span></p>    \n                    <p>Lector:<span class=\"course-lector\"> Eve</span></p>     \n                    </div>\n                \n                    <div class=\"course--admin\">\n                    <p>Titel: <span class=\"course-title\">Art</span></p>\n                    <p>Admin's score: <span class=\"course-score B\">B</span></p>    \n                    <p>Lector:<span class=\"course-lector\"> Bob</span></p>     \n                    </div>\n                " := by
  decide

set_option maxRecDepth 100000 in
theorem Lector_renderCourses_sample :
    Lector.renderCourses sampleGradation sampleCourses =
      "\n                    <div class=\"course--lector\">\n                    <p>Titel: <span class=\"course-title\"> Math</span></p>\n                    <p>Lector's score: <span class=\"course-score A\"> A</span></p>\n                    <p>Average student's score: <span class=\"course-score \"> </span></p>\n                    </div>\n                \n                    <div class=\"course--lector\">\n                    <p>Titel: <span class=\"course-title\"> Art</span></p>\n                    <p>Lector's score: <span class=\"course-score B\"> B</span></p>\n                    <p>Average student's score: <span class=\"course-score \"> </span></p>\n                    </div>\n                " := by
  decide

set_option maxRecDepth 100000 in
/-- The card of the record with the role `user-courses` opens with a `div` of
the classes `user-card` and `user-courses`. -/
theorem sampleRoleClash_card_prefix :
    "\n                    <div class=\"user-card user-courses\">".data
      <+: (User.render sampleGradation (construct .User sampleRoleClash)).data := by
  decide

set_option maxRecDepth 100000 in
theorem sampleRoleClash_count :
    coursesClassCount (User.render sampleGradation (construct .User sampleRoleClash)) = 4 := by
  decide

set_option maxRecDepth 100000 in
theorem sampleMarkupName_count :
    coursesClassCount (User.render sampleGradation (construct .User sampleMarkupName)) = 2 := by
  decide

/-! ## The claims on `getScoreClass` -/

/-- C1: for every table (its ceilings are integers up to `2^52`) and every numeric
mark that is at or below at least one ceiling, `getScoreClass` returns from the
loop at a pair of the table whose ceiling is at least the mark and is the
lowest such ceiling, and the result is that pair's label. -/
theorem getScoreClass_lowest_ceiling (gradation : Gradation) (q : ℚ)
    (h : ∃ y ∈ gradation, q ≤ (y.1 : ℚ)) :
    ∃ e ∈ gradation, q ≤ (e.1 : ℚ) ∧
      (∀ y ∈ gradation, q ≤ (y.1 : ℚ) → e.1 ≤ y.1) ∧
      getScoreEntry gradation (.number q) = some e ∧
      getScoreClass gradation (.number q) = e.2 :=
  getScoreClass_number_spec gradation q h

/-- C1, the sample table `{60: "C", 80: "B", 100: "A"}`: the general statement
applied at mark 61, and the four marks 60, 61, 100 and 101 evaluated. -/
theorem getScoreClass_lowest_ceiling_witness :
    (∃ e ∈ sampleGradation, (61 : ℚ) ≤ (e.1 : ℚ) ∧
      (∀ y ∈ sampleGradation, (61 : ℚ) ≤ (y.1 : ℚ) → e.1 ≤ y.1) ∧
      getScoreEntry sampleGradation (.number 61) = some e ∧
      getScoreClass sampleGradation (.number 61) = e.2) ∧
    getScoreClass sampleGradation (.number 60) = "C" ∧
    getScoreClass sampleGradation (.number 61) = "B" ∧
    getScoreClass sampleGradation (.number 100) = "A" ∧
    getScoreClass sampleGradation (.number 101) = "" :=
  ⟨getScoreClass_lowest_ceiling sampleGradation 61
      ⟨(⟨80, by decide⟩, "B"), by decide, by decide⟩,
   by decide, by decide, by decide, by decide⟩

/-- C2: in a table whose ceilings are integers up to `2^52` and pairwise distinct, a
mark equal to a ceiling of the table gets exactly the label the table attaches
to that ceiling (the upper bound is inclusive). -/
theorem getScoreClass_at_ceiling (gradation : Gradation)
    (hd : (gradation.map Prod.fst).Nodup) (e : Entry) (he : e ∈ gradation) :
    getScoreClass gradation (.number (e.1 : ℚ)) = e.2 := by
  obtain ⟨e₀, h₀⟩ := getScoreEntry_number_isSome gradation (e.1 : ℚ) ⟨e, he, le_refl _⟩
  obtain ⟨hm, hq, hmin⟩ := getScoreEntry_number_spec gradation _ e₀ h₀
  have h1 : e.1 ≤ e₀.1 := by exact_mod_cast hq
  have h2 : e₀.1 ≤ e.1 := hmin e he (le_refl _)
  have hk : e₀.1 = e.1 := le_antisymm h2 h1
  have : e₀ = e := List.inj_on_of_nodup_map hd hm he hk
  rw [getScoreClass_eq_entry, h₀, this]

/-- C2 at the sample table: mark 80 gets the label of the ceiling 80. -/
theorem getScoreClass_at_ceiling_witness :
    getScoreClass sampleGradation (.number ((80 : Int) : ℚ)) = "B" :=
  getScoreClass_at_ceiling sampleGradation (by decide) (⟨80, by decide⟩, "B") (by decide)

/-- C3: for every table (its ceilings are integers up to `2^52`), a numeric mark
strictly above every ceiling (`Infinity` for every table, and every mark when
the table is empty) gets the empty string; and when every label of the table
is non-empty, a numeric mark gets the empty string only if it is strictly above
every ceiling. -/
theorem getScoreClass_above_all (gradation : Gradation) (q : ℚ) :
    ((∀ e ∈ gradation, (e.1 : ℚ) < q) → getScoreClass gradation (.number q) = "") ∧
    getScoreClass gradation .posInfinity = "" ∧
    (∀ mark : JSValue, getScoreClass [] mark = "") ∧
    ((∀ e ∈ gradation, e.2 ≠ "") → getScoreClass gradation (.number q) = "" →
      ∀ e ∈ gradation, (e.1 : ℚ) < q) := by
  refine ⟨?_, getScoreClassLoop_of_forall_not _ _ (fun _ _ => rfl), fun _ => rfl, ?_⟩
  · intro h
    apply getScoreClassLoop_of_forall_not
    intro e he
    have := h e (mem_sortEntries.1 he)
    simp [lessEq, this]
  · intro hl hres e he
    by_contra hlt
    obtain ⟨e₀, hm, _, _, _, hc⟩ :=
      getScoreClass_number_spec gradation q ⟨e, he, not_lt.1 hlt⟩
    exact hl e₀ hm (hc ▸ hres)

/-- C3 at the sample table: mark 101 is above every ceiling and gets the empty
string, and the empty result yields the bound on every ceiling back. -/
theorem getScoreClass_above_all_witness :
    getScoreClass sampleGradation (.number 101) = "" ∧
    ∀ e ∈ sampleGradation, (e.1 : ℚ) < 101 :=
  ⟨(getScoreClass_above_all sampleGradation 101).1 (by decide),
   (getScoreClass_above_all sampleGradation 101).2.2.2 (by decide) (by decide)⟩

/-- C4: `getScoreClass` is monotone. For numeric marks `m < n` that are both at
or below some ceiling of the table, the loop returns at a pair for each of
them, the labels returned are those pairs' labels, and the ceiling found for
`m` is at most the ceiling found for `n`. -/
theorem getScoreClass_monotone (gradation : Gradation) (m n : ℚ) (hmn : m < n)
    (hm : ∃ y ∈ gradation, m ≤ (y.1 : ℚ)) (hn : ∃ y ∈ gradation, n ≤ (y.1 : ℚ)) :
    ∃ em en, getScoreEntry gradation (.number m) = some em ∧
      getScoreEntry gradation (.number n) = some en ∧
      getScoreClass gradation (.number m) = em.2 ∧
      getScoreClass gradation (.number n) = en.2 ∧
      em.1 ≤ en.1 := by
  obtain ⟨em, _, _, hmin, hem, hcm⟩ := getScoreClass_number_spec gradation m hm
  obtain ⟨en, hen_mem, hqn, _, hen, hcn⟩ := getScoreClass_number_spec gradation n hn
  exact ⟨em, en, hem, hen, hcm, hcn, hmin en hen_mem (le_trans (le_of_lt hmn) hqn)⟩

/-- C4 at the sample table, for the marks 55 and 95. -/
theorem getScoreClass_monotone_witness :
    ∃ em en, getScoreEntry sampleGradation (.number 55) = some em ∧
      getScoreEntry sampleGradation (.number 95) = some en ∧
      getScoreClass sampleGradation (.number 55) = em.2 ∧
      getScoreClass sampleGradation (.number 95) = en.2 ∧
      em.1 ≤ en.1 :=
  getScoreClass_monotone sampleGradation 55 95 (by decide)
    ⟨(⟨60, by decide⟩, "C"), by decide, by decide⟩
    ⟨(⟨100, by decide⟩, "A"), by decide, by decide⟩

/-- C9: the result does not depend on the order of the table's pairs. Two
tables holding the same pairs in different orders, with pairwise distinct
ceilings (integers up to `2^52`), sort to the same ascending list and so give the same
label for every mark. -/
theorem getScoreClass_order_independent (g₁ g₂ : Gradation) (hp : g₁.Perm g₂)
    (hd : (g₁.map Prod.fst).Nodup) (mark : JSValue) :
    sortEntries g₁ = sortEntries g₂ ∧
    (sortEntries g₁).Pairwise (fun x y => x.1 ≤ y.1) ∧
    getScoreClass g₁ mark = getScoreClass g₂ mark := by
  have h := sortEntries_eq_of_perm g₁ g₂ hp hd
  exact ⟨h, sortEntries_pairwise g₁, by unfold getScoreClass; rw [h]⟩

/-- C9 at two tables that differ in the insertion order of the keys `-5` and
`-10`: they hold the same pairs, are different lists, and give the same label
for the mark `-7`. -/
theorem getScoreClass_order_independent_witness :
    sampleNegativeFirst.Perm sampleNegativeSecond ∧
    sampleNegativeFirst ≠ sampleNegativeSecond ∧
    getScoreClass sampleNegativeFirst (.number (-7)) =
      getScoreClass sampleNegativeSecond (.number (-7)) ∧
    getScoreClass sampleNegativeFirst (.number (-7)) = "Z" :=
  ⟨List.Perm.cons _ (List.Perm.cons _ (List.Perm.swap _ _ _)),
   by decide,
   (getScoreClass_order_independent sampleNegativeFirst sampleNegativeSecond
      (List.Perm.cons _ (List.Perm.cons _ (List.Perm.swap _ _ _))) (by decide)
      (.number (-7))).2.2,
   by decide⟩

/-- C5, as the claim states it, fails: the mark `null` is converted to the
number 0 and gets the first grade of the sample table, and the non-numeric
string `"-"` sorts before the key `"60"` and gets the first grade too. -/
theorem getScoreClass_non_numeric_counterexample :
    getScoreClass sampleGradation .null = "C" ∧
    getScoreClass sampleGradation .null ≠ "" ∧
    getScoreClass sampleGradation (.string "-") = "C" ∧
    getScoreClass sampleGradation (.string "-") ≠ "" := by
  decide

/-- C5, amended: for every table, the marks `undefined` and `NaN` get the empty
label, and so does every string mark whose first character has a code above
that of the digit `9` (every string that starts with a letter); the mark
`null` is classified as the number 0. -/
theorem getScoreClass_undefined_nan (gradation : Gradation) :
    getScoreClass gradation .undefined = "" ∧
    getScoreClass gradation .nan = "" ∧
    (∀ (c : Char) (cs : List Char), 57 < c.toNat →
      getScoreClass gradation (.string ⟨c :: cs⟩) = "") ∧
    getScoreClass gradation .null = getScoreClass gradation (.number 0) := by
  refine ⟨?_, ?_, ?_, ?_⟩
  · exact getScoreClassLoop_of_forall_not _ _ (fun _ _ => rfl)
  · exact getScoreClassLoop_of_forall_not _ _ (fun _ _ => rfl)
  · intro c cs hc
    exact getScoreClassLoop_of_forall_not _ _ (fun e _ => lessEq_string_letter e.1 c cs hc)
  · unfold getScoreClass
    generalize sortEntries gradation = l
    induction l with
    | nil => rfl
    | cons a rest ih =>
      obtain ⟨k, g⟩ := a
      simp only [getScoreClassLoop, lessEq, ih]

/-- C5, amended, at the sample table: `undefined`, `NaN` and the string `"abc"`
get the empty label. -/
theorem getScoreClass_undefined_nan_witness :
    getScoreClass sampleGradation .undefined = "" ∧
    getScoreClass sampleGradation .nan = "" ∧
    getScoreClass sampleGradation (.string "abc") = "" :=
  ⟨(getScoreClass_undefined_nan sampleGradation).1,
   (getScoreClass_undefined_nan sampleGradation).2.1,
   (getScoreClass_undefined_nan sampleGradation).2.2.1 'a' ['b', 'c'] (by decide)⟩

/-! ## The claims on rendering -/

/-- C6: `renderUsers` dispatches on the lowercased role. A record whose
lowercased role is "admin" gets the card with the courses block of
`Admin.renderCourses`, one whose lowercased role is "lector" the card with the
courses block of `Lector.renderCourses`, and every other record ("student" in
any letter case, or an unrecognised role) gets exactly the card the base class
`User` renders for it. The text before the courses slot is the same for all
classes. -/
theorem renderUsers_role_dispatch (gradation : Gradation) (user : UserRecord) :
    (toLowerCase user.role = "admin" →
      userCard gradation user =
        cardHead (construct .Admin user)
          ++ (if (user.courses.getD []).length ≠ 0 then
                "<div class=\"user-courses\">"
                  ++ Admin.renderCourses gradation (user.courses.getD []) ++ "</div>"
              else "")
          ++ cardFoot) ∧
    (toLowerCase user.role = "lector" →
      userCard gradation user =
        cardHead (construct .Lector user)
          ++ (if (user.courses.getD []).length ≠ 0 then
                "<div class=\"user-courses\">"
                  ++ Lector.renderCourses gradation (user.courses.getD []) ++ "</div>"
              else "")
          ++ cardFoot) ∧
    (toLowerCase user.role ≠ "admin" → toLowerCase user.role ≠ "lector" →
      userCard gradation user = User.render gradation (construct .User user)) ∧
    cardHead (construct .Admin user) = cardHead (construct .User user) ∧
    cardHead (construct .Lector user) = cardHead (construct .User user) := by
  refine ⟨?_, ?_, ?_, rfl, rfl⟩
  · intro h
    have hs : toLowerCase user.role ≠ "student" := by rw [h]; decide
    simp only [userCard, instantiate, h, hs, if_true, if_false]
    rfl
  · intro h
    have hs : toLowerCase user.role ≠ "student" := by rw [h]; decide
    have ha : toLowerCase user.role ≠ "admin" := by rw [h]; decide
    simp only [userCard, instantiate, h, hs, ha, if_true, if_false]
    rfl
  · intro ha hl
    by_cases hs : toLowerCase user.role = "student"
    · simp only [userCard, instantiate, hs, if_true]
      rfl
    · simp only [userCard, instantiate, hs, ha, hl, if_false]

/-- C7: the markup `renderUsers` writes is the concatenation of the cards of
the records, in input order and with nothing in between: one card per record,
the markup of `xs ++ ys` is the markup of `xs` followed by that of `ys`, and
four records with the roles Student, Admin, Lector and "guest" give the four
cards of the classes `Student`, `Admin`, `Lector` and `User` in that order. -/
theorem renderUsers_concatenation (gradation : Gradation) (xs ys : List UserRecord) :
    renderUsers gradation (xs ++ ys) = renderUsers gradation xs ++ renderUsers gradation ys ∧
    renderUsers gradation xs = joinStrings (xs.map (userCard gradation)) ∧
    (xs.map (userCard gradation)).length = xs.length ∧
    renderUsers gradation [] = "" ∧
    (∀ x, renderUsers gradation (x :: xs) = userCard gradation x ++ renderUsers gradation xs) ∧
    renderUsers gradation [sampleStudent, sampleAdmin, sampleLector, sampleGuest] =
      User.render gradation (construct .Student sampleStudent)
        ++ (User.render gradation (construct .Admin sampleAdmin)
        ++ (User.render gradation (construct .Lector sampleLector)
        ++ User.render gradation (construct .User sampleGuest))) := by
  refine ⟨?_, rfl, List.length_map _ _, rfl, fun _ => rfl, ?_⟩
  · simp only [renderUsers, List.map_append, joinStrings_append]
  · have h1 : instantiate sampleStudent = construct .Student sampleStudent := by
      simp only [instantiate]; rfl
    have h2 : instantiate sampleAdmin = construct .Admin sampleAdmin := by
      rfl
    have h3 : instantiate sampleLector = construct .Lector sampleLector := by
      rfl
    have h4 : instantiate sampleGuest = construct .User sampleGuest := by
      rfl
    simp only [renderUsers, List.map, joinStrings, userCard, h1, h2, h3, h4,
      String.append_empty]

/-- C8, as the claim states it, fails. A record without `courses` whose role
is the text `user-courses` is constructed with no courses, and its card opens
with a `div` of the classes `user-card` and `user-courses`; the class name is
written four times in the card. A record with empty `courses` whose name is
the tag `<div class="user-courses">` gets a card that holds that tag twice.
The templates do not escape the texts they interpolate. -/
theorem render_courses_block_counterexample :
    sampleRoleClash.courses = none ∧
    (construct .User sampleRoleClash).courses = [] ∧
    ("\n                    <div class=\"user-card user-courses\">".data
      <+: (User.render sampleGradation (construct .User sampleRoleClash)).data) ∧
    coursesClassCount (User.render sampleGradation (construct .User sampleRoleClash)) = 4 ∧
    sampleMarkupName.courses = some [] ∧
    (construct .User sampleMarkupName).courses = [] ∧
    coursesClassCount (User.render sampleGradation (construct .User sampleMarkupName)) = 2 :=
  ⟨rfl, rfl, sampleRoleClash_card_prefix, sampleRoleClash_count, rfl, rfl,
   sampleMarkupName_count⟩

/-- C8, amended: for every class, a record whose `courses` is missing or empty
is constructed with `courses` the empty sequence, and its card is the text
before the courses slot followed directly by the closing text: the slot is
empty. A record with at least one course gets a card whose slot holds the
block `<div class="user-courses">`, the output of `renderCourses`, `</div>`.
When none of the interpolated texts (name, image, role and lowercased role,
course titles, lector names, and the table's labels where courses are
rendered) writes the class name `user-courses`, the class name is written in
the card zero times in the first case and exactly once in the second. -/
theorem render_courses_block (gradation : Gradation) (cls : UserClass) (user : UserRecord) :
    ((user.courses = none ∨ user.courses = some []) →
      (construct cls user).courses = [] ∧
      User.render gradation (construct cls user) = cardHead (construct cls user) ++ cardFoot ∧
      (cleanRecord user → coursesClassCount (User.render gradation (construct cls user)) = 0)) ∧
    (∀ c cs, user.courses = some (c :: cs) →
      (construct cls user).courses = c :: cs ∧
      User.render gradation (construct cls user) =
        cardHead (construct cls user)
          ++ ("<div class=\"user-courses\">"
                ++ (construct cls user).renderCourses gradation ++ "</div>")
          ++ cardFoot ∧
      (cleanRecord user → cleanGradation gradation →
        coursesClassCount (User.render gradation (construct cls user)) = 1)) := by
  constructor
  · intro h
    have hnil : (construct cls user).courses = [] := by
      rcases h with h | h <;> simp [construct, h]
    refine ⟨hnil, render_of_courses_nil _ _ hnil, ?_⟩
    intro hp
    exact coursesClassCount_render_nil _ _ hnil hp.1 hp.2.1 hp.2.2.1 hp.2.2.2.1
  · intro c cs h
    have hcons : (construct cls user).courses = c :: cs := by simp [construct, h]
    have hne : (construct cls user).courses ≠ [] := by rw [hcons]; simp
    refine ⟨hcons, render_of_courses_cons _ _ hne, ?_⟩
    intro hp hg
    exact coursesClassCount_render_cons _ _ hne hg hp.1 hp.2.1 hp.2.2.1 hp.2.2.2.1 hp.2.2.2.2

/-- C8, amended, at the sample records: the record without `courses` gets a
card that does not write the class name, the record with one course a card
that writes it exactly once. -/
theorem render_courses_block_witness :
    ((construct .User sampleGuest).courses = [] ∧
      User.render sampleGradation (construct .User sampleGuest) =
        cardHead (construct .User sampleGuest) ++ cardFoot ∧
      coursesClassCount (User.render sampleGradation (construct .User sampleGuest)) = 0) ∧
    coursesClassCount (User.render sampleGradation (construct .Student sampleStudent)) = 1 :=
  ⟨⟨((render_courses_block sampleGradation .User sampleGuest).1 (Or.inl rfl)).1,
    ((render_courses_block sampleGradation .User sampleGuest).1 (Or.inl rfl)).2.1,
    ((render_courses_block sampleGradation .User sampleGuest).1 (Or.inl rfl)).2.2
      (by unfold cleanRecord cleanCourse; decide)⟩,
   ((render_courses_block sampleGradation .Student sampleStudent).2 _ _ rfl).2.2
      (by unfold cleanRecord cleanCourse; decide) (by unfold cleanGradation; decide)⟩

/-- C6 at sample records: the Admin record gets the Admin courses block, and
the "guest" record and a record with the role "STUDENT" get the base card. -/
theorem renderUsers_role_dispatch_witness :
    userCard sampleGradation sampleAdmin =
        cardHead (construct .Admin sampleAdmin)
          ++ (if (sampleAdmin.courses.getD []).length ≠ 0 then
                "<div class=\"user-courses\">"
                  ++ Admin.renderCourses sampleGradation (sampleAdmin.courses.getD [])
                  ++ "</div>"
              else "")
          ++ cardFoot ∧
    userCard sampleGradation sampleGuest =
      User.render sampleGradation (construct .User sampleGuest) ∧
    userCard sampleGradation { sampleStudent with role := "STUDENT" } =
      User.render sampleGradation (construct .User { sampleStudent with role := "STUDENT" }) :=
  ⟨(renderUsers_role_dispatch sampleGradation sampleAdmin).1 (by decide),
   (renderUsers_role_dispatch sampleGradation sampleGuest).2.2.1 (by decide) (by decide),
   (renderUsers_role_dispatch sampleGradation { sampleStudent with role := "STUDENT" }).2.2.1
     (by decide) (by decide)⟩

/-- C10: `renderCourses` returns the concatenation, in course order, of one
entry per course: the empty string for no course, and for the courses
`c :: cs` the entry of `c` followed by the result for `cs`. The entry of the
base class and of `Student` carries `getScoreClass(course.mark)`, the entry of
`Admin` carries `getScoreClass(course.score)` and the course's lector, and the
entry of `Lector` carries `getScoreClass(course.score)` followed by
`getScoreClass(course.studentsScore)`; each label is written twice, as a class
name and as the text of the span. The three methods are evaluated on two
sample courses. -/
theorem renderCourses_per_role (gradation : Gradation) (this : UserObject) :
    this.renderCourses gradation =
      this.courses.foldr (fun course rest =>
        (match this.cls with
        | .Admin =>
          "\n                    <div class=\"course--admin\">\n                    <p>Titel: <span class=\"course-title\">"
            ++ course.title
            ++ "</span></p>\n                    <p>Admin's score: <span class=\"course-score "
            ++ getScoreClass gradation course.score
            ++ "\">"
            ++ getScoreClass gradation course.score
            ++ "</span></p>    \n                    <p>Lector:<span class=\"course-lector\"> "
            ++ course.lector
            ++ "</span></p>     \n                    </div>\n                "
        | .Lector =>
          "\n                    <div class=\"course--lector\">\n                    <p>Titel: <span class=\"course-title\"> "
            ++ course.title
            ++ "</span></p>\n                    <p>Lector's score: <span class=\"course-score "
            ++ getScoreClass gradation course.score
            ++ "\"> "
            ++ getScoreClass gradation course.score
            ++ "</span></p>\n                    <p>Average student's score: <span class=\"course-score "
            ++ getScoreClass gradation course.studentsScore
            ++ "\"> "
            ++ getScoreClass gradation course.studentsScore
            ++ "</span></p>\n                    </div>\n                "
        | _ =>
          "\n                    <div class=\"course\">\n                        <span class=\"course-title\">"
            ++ course.title
            ++ "</span>\n                        <span class=\"course-score "
            ++ getScoreClass gradation course.mark
            ++ "\">"
            ++ getScoreClass gradation course.mark
            ++ "</span>\n                    </div>\n                ") ++ rest) "" ∧
    UserObject.renderCourses gradation { this with courses := [] } = "" ∧
    (∀ (c : Course) (cs : List Course),
      UserObject.renderCourses gradation { this with courses := c :: cs } =
        (match this.cls with
        | .Admin => Admin.courseEntry gradation c
        | .Lector => Lector.courseEntry gradation c
        | _ => User.courseEntry gradation c)
          ++ UserObject.renderCourses gradation { this with courses := cs }) ∧
    User.renderCourses sampleGradation sampleCourses =
      "\n                    <div class=\"course\">\n                        <span class=\"course-title\">Math</span>\n                        <span class=\"course-score B\">B</span>\n                    </div>\n                \n                    <div class=\"course\">\n                        <span class=\"course-title\">Art</span>\n                        <span class=\"course-score C\">C</span>\n                    </div>\n                " ∧
    Admin.renderCourses sampleGradation sampleCourses =
      "\n                    <div class=\"course--admin\">\n                    <p>Titel: <span class=\"course-title\">Math</span></p>\n                    <p>Admin's score: <span class=\"course-score A\">A</span></p>    \n                    <p>Lector:<span class=\"course-lector\"> Eve</span></p>     \n                    </div>\n                \n                    <div class=\"course--admin\">\n                    <p>Titel: <span class=\"course-title\">Art</span></p>\n                    <p>Admin's score: <span class=\"course-score B\">B</span></p>    \n                    <p>Lector:<span class=\"course-lector\"> Bob</span></p>     \n                    </div>\n                " ∧
    Lector.renderCourses sampleGradation sampleCourses =
      "\n                    <div class=\"course--lector\">\n                    <p>Titel: <span class=\"course-title\"> Math</span></p>\n                    <p>Lector's score: <span class=\"course-score A\"> A</span></p>\n                    <p>Average student's score: <span class=\"course-score \"> </span></p>\n                    </div>\n                \n                    <div class=\"course--lector\">\n                    <p>Titel: <span class=\"course-title\"> Art</span></p>\n                    <p>Lector's score: <span class=\"course-score B\"> B</span></p>\n                    <p>Average student's score: <span class=\"course-score \"> </span></p>\n                    </div>\n                " := by
  refine ⟨?_, ?_, ?_, ?_, ?_, ?_⟩
  · unfold UserObject.renderCourses
    cases this.cls <;>
      simp only [User.renderCourses, Admin.renderCourses, Lector.renderCourses,
        joinStrings_map_eq_foldr] <;> rfl
  · unfold UserObject.renderCourses
    cases this.cls <;> rfl
  · intro c cs
    unfold UserObject.renderCourses
    cases this.cls <;> rfl
  · exact User_renderCourses_sample
  · exact Admin_renderCourses_sample
  · exact Lector_renderCourses_sample

end HW30
